import Mathlib

/-!
Verification development for the live multiplayer subsystem of the
chess-api repository: room state machine (src/rooms.js), wildcard-aware
matchmaker (src/matchmaking.js) and the WebSocket routing layer.

Modelling conventions:
  * JavaScript in-place mutation of the room/queue maps is rendered as
    functional update of an explicit `ServerState` record; insertion-ordered
    JS `Map`s become association lists (`aset` appends new keys at the end,
    matching `Map.set` iteration order).
  * `Date.now()` is an explicit `now : Int` argument (milliseconds).
  * The external rule engine (chess.js) is a black box: an `Oracle` record
    supplies the legality test and terminal predicates as functions of the
    move history; the engine state is exactly its history of applied moves
    (`chess.turn()` alternates with ply parity, ply count = history length).
  * Randomness (room codes, the colour coin flip) is supplied by the caller
    as extra arguments.
  * Side effects (frames written to sockets, persistence calls) are returned
    as an ordered `List Event`.  The source `send` helper silently drops a
    write to a missing or non-open socket; `sendTo` reproduces this using
    the set of open connection ids carried in the state.
  * One-shot timers are modelled by their armed flag (plus, for the
    disconnect grace timer, the side captured by the callback closure); the
    timer callbacks are separate functions that are given the room id.
-/

namespace ChessApi

abbrev SessionId := String
abbrev San := String
abbrev Fen := String
abbrev ConnId := Nat

inductive Side where
  | w
  | b
deriving DecidableEq, Repr

def Side.other : Side → Side
  | .w => .b
  | .b => .w

/-- Association-list lookup (JS `Map.get`). -/
def alookup {κ α : Type} [DecidableEq κ] : List (κ × α) → κ → Option α
  | [], _ => none
  | (k1, v) :: rest, k => if k1 = k then some v else alookup rest k

/-- Association-list insert/update (JS `Map.set`): updates in place when the
key exists, otherwise appends at the end, preserving insertion order. -/
def aset {κ α : Type} [DecidableEq κ] : List (κ × α) → κ → α → List (κ × α)
  | [], k, v => [(k, v)]
  | (k1, v1) :: rest, k, v =>
    if k1 = k then (k, v) :: rest else (k1, v1) :: aset rest k v

/-- Association-list delete (JS `Map.delete`). -/
def adelete {κ α : Type} [DecidableEq κ] : List (κ × α) → κ → List (κ × α)
  | [], _ => []
  | (k1, v1) :: rest, k =>
    if k1 = k then rest else (k1, v1) :: adelete rest k

/-- JS `a || d` for an optional string: `undefined`, `null` and `""` are
falsy and give the default. -/
def jsOr (s : Option String) (d : String) : String :=
  match s with
  | none => d
  | some v => if v = "" then d else v

/-- The external chess.js rule engine, as a black box over move histories. -/
structure Oracle where
  legal : List San → San → Option San
  fen : List San → Fen
  isGameOver : List San → Bool
  isCheckmate : List San → Bool
  isDraw : List San → Bool
  isStalemate : List San → Bool
  isThreefoldRepetition : List San → Bool
  isInsufficientMaterial : List San → Bool

/-- The rule-engine instance held by a room: its applied move history.
The ply count of the engine is `history.length`. -/
structure Engine where
  history : List San
deriving DecidableEq, Repr

/-- chess.js `turn()`: white to move iff an even number of plies applied. -/
def Engine.turn (e : Engine) : Side :=
  if e.history.length % 2 = 0 then Side.w else Side.b

/-- chess.js `move(san)`: `none` when the SAN is rejected, otherwise the
normalised SAN together with the advanced engine. -/
def Engine.move (o : Oracle) (e : Engine) (san : San) : Option (San × Engine) :=
  match o.legal e.history san with
  | none => none
  | some nsan => some (nsan, ⟨e.history ++ [nsan]⟩)

structure Player where
  ws : Option ConnId
  sessionId : SessionId
  name : String
  connected : Bool
  disconnectedAt : Option Int := none
deriving DecidableEq, Repr

structure Clocks where
  w : Int
  b : Int
  increment : Int
  lastMoveAt : Option Int
deriving DecidableEq, Repr

def Clocks.get (c : Clocks) : Side → Int
  | .w => c.w
  | .b => c.b

def Clocks.set (c : Clocks) : Side → Int → Clocks
  | .w, v => { c with w := v }
  | .b, v => { c with b := v }

inductive Status where
  | waiting
  | playing
  | finished
deriving DecidableEq, Repr

structure MoveRecord where
  ply : Nat
  san : San
  fen : Fen
  timestamp : Int
  side : Side
deriving DecidableEq, Repr

structure Room where
  id : String
  white : Player
  black : Option Player
  chess : Engine
  timeControl : String
  clocks : Option Clocks
  moves : List MoveRecord
  status : Status
  dbGameId : Option Nat
  createdAt : Int
  cleanupTimer : Bool
  disconnectTimer : Option Side
  rematchOfferedBy : Option Side := none
deriving DecidableEq, Repr

structure QueueEntry where
  ws : Option ConnId
  sessionId : SessionId
  name : String
deriving DecidableEq, Repr

abbrev Queues := List (String × List QueueEntry)

structure ServerState where
  rooms : List (String × Room)
  sessionRooms : List (SessionId × String)
  queues : Queues
  connections : List (ConnId × SessionId)
  openConns : List ConnId
  nextDbId : Nat
deriving DecidableEq, Repr

def initState : ServerState :=
  { rooms := [], sessionRooms := [], queues := [], connections := [],
    openConns := [], nextDbId := 1 }

/-- Observable effects: frames written to a socket and persistence calls. -/
inductive Event where
  | errorFrame (conn : ConnId) (message : String)
  | authOk (conn : ConnId)
  | roomCreated (conn : ConnId) (roomId : String) (color : Side)
  | gameStart (conn : ConnId) (roomId : String) (fen : Fen)
      (timeControl : String) (color : Side) (opponentName : String)
  | moveFrame (conn : ConnId) (san : San) (fen : Fen)
      (clocks : Option (Int × Int))
  | moveAck (conn : ConnId) (clocks : Int × Int)
  | gameEnd (conn : ConnId) (result : Option String) (reason : Option String)
  | drawOffered (conn : ConnId)
  | drawDeclined (conn : ConnId)
  | rematchOffered (conn : ConnId)
  | rematchDeclined (conn : ConnId)
  | rematchStart (conn : ConnId) (roomId : String) (fen : Fen)
      (timeControl : String) (color : Side) (opponentName : String)
  | opponentDisconnected (conn : ConnId) (timeoutSec : Int)
  | opponentReconnected (conn : ConnId)
  | reconnectFrame (conn : ConnId) (roomId : String) (color : Side)
      (fen : Fen) (timeControl : String) (moves : List San)
      (clocks : Option (Int × Int)) (opponentName : String)
      (opponentConnected : Bool)
  | queueJoined (conn : ConnId) (timeControl : String) (position : Nat)
  | queueLeft (conn : ConnId)
  | dbCreateGame (id : Nat) (timeControl : String) (startingFen : Fen)
      (whiteName : String) (blackName : String)
  | dbAddMove (gameId : Nat) (m : MoveRecord)
  | dbEndGame (gameId : Nat) (result : Option String) (reason : Option String)
deriving DecidableEq, Repr

/-- The `send(ws, type, payload)` helper of the source: a write to a missing
socket or one whose readyState is not OPEN is a silent no-op. -/
def sendTo (st : ServerState) (ws : Option ConnId) (ev : ConnId → Event) :
    List Event :=
  match ws with
  | none => []
  | some c => if st.openConns.contains c then [ev c] else []

def ROOM_TTL_AFTER_END : Int := 5 * 60 * 1000

def DISCONNECT_GRACE_PERIOD : Int := 60 * 1000

/-- Split a character list at every plus sign (structural counterpart of
splitting on the separator of the time-control regex). -/
def splitOnPlus : List Char → List (List Char)
  | [] => [[]]
  | c :: rest =>
    match splitOnPlus rest with
    | chunk :: chunks =>
      if c = '+' then [] :: chunk :: chunks
      else (c :: chunk) :: chunks
    | [] => [[]]

/-- Decimal value of a digit run. -/
def charsToNat (l : List Char) : Nat :=
  l.foldl (fun n c => n * 10 + (c.toNat - 48)) 0

/-- `parseTimeControl(tc)` from src/rooms.js: accepts exactly the strings
matched by the regex `(\d+)+(\d+)` anchored on both sides, with one plus
sign between two digit runs; `null`, `undefined`, the empty string and
`"none"` give `null`. -/
def parseTimeControl (tc : Option String) : Option (Nat × Nat) :=
  match tc with
  | none => none
  | some s =>
    if s = "" ∨ s = "none" then none
    else
      match splitOnPlus s.data with
      | [m, i] =>
        if m ≠ [] ∧ i ≠ [] ∧ m.all Char.isDigit ∧ i.all Char.isDigit then
          some (charsToNat m, charsToNat i)
        else none
      | _ => none

/-- JS `toUpperCase()` over the ASCII room-code alphabet. -/
def jsToUpper (s : String) : String :=
  String.mk (s.data.map Char.toUpper)

def getPlayerSide (room : Room) (sessionId : SessionId) : Option Side :=
  if room.white.sessionId = sessionId then some Side.w
  else
    match room.black with
    | some bp => if bp.sessionId = sessionId then some Side.b else none
    | none => none

def getPlayerBySide (room : Room) : Side → Option Player
  | .w => some room.white
  | .b => room.black

def updatePlayerBySide (room : Room) (side : Side) (f : Player → Player) :
    Room :=
  match side with
  | .w => { room with white := f room.white }
  | .b => { room with black := room.black.map f }

def ServerState.setRoom (st : ServerState) (roomId : String) (room : Room) :
    ServerState :=
  { st with rooms := aset st.rooms roomId room }

def getRoomForSession (st : ServerState) (sessionId : SessionId) :
    Option Room :=
  match alookup st.sessionRooms sessionId with
  | none => none
  | some roomId => alookup st.rooms roomId

/-- db.js `createGame`: inserts a row and returns the fresh rowid, modelled
by the monotone `nextDbId` counter. -/
def createGame (st : ServerState) (timeControl : String) (startingFen : Fen)
    (whiteName blackName : String) : Nat × ServerState × List Event :=
  let id := st.nextDbId
  (id, { st with nextDbId := id + 1 },
   [Event.dbCreateGame id timeControl startingFen whiteName blackName])

/-- `finishGame(room, result, reason)` from src/rooms.js.  `result` and
`reason` are optional because the caller in `makeMove` can leave them
undefined when the engine reports game over without checkmate or draw. -/
def finishGame (st : ServerState) (roomId : String) (room : Room)
    (result reason : Option String) : ServerState × List Event :=
  let room1 := { room with status := Status.finished, cleanupTimer := true }
  let dbEvs := match room.dbGameId with
    | some g => [Event.dbEndGame g result reason]
    | none => []
  let wEvs := sendTo st room.white.ws (fun c => Event.gameEnd c result reason)
  let bEvs := match room.black with
    | some bp => sendTo st bp.ws (fun c => Event.gameEnd c result reason)
    | none => []
  (st.setRoom roomId room1, dbEvs ++ wEvs ++ bEvs)

def cleanupRoom (st : ServerState) (roomId : String) : ServerState :=
  match alookup st.rooms roomId with
  | none => st
  | some room =>
    let sr1 := adelete st.sessionRooms room.white.sessionId
    let sr2 := match room.black with
      | some bp => adelete sr1 bp.sessionId
      | none => sr1
    { st with sessionRooms := sr2, rooms := adelete st.rooms roomId }

/-- `createRoom(ws, sessionId, name, timeControl)` from src/rooms.js, with
the freshly generated room code supplied as `newCode` (generateRoomCode
rejection-samples a code unused in `rooms`). -/
def createRoom (st : ServerState) (now : Int) (ws : Option ConnId)
    (sessionId : SessionId) (name : Option String)
    (timeControl : Option String) (newCode : String) :
    Room × ServerState × List Event :=
  let roomId := newCode
  let effectiveTc : Option String :=
    if timeControl = some "any" then some "5+0" else timeControl
  let tc := parseTimeControl effectiveTc
  let timeMs : Int := match tc with
    | some (m, _) => (m : Int) * 60 * 1000
    | none => 0
  let room : Room :=
    { id := roomId,
      white := { ws := ws, sessionId := sessionId, name := jsOr name "White",
                 connected := true },
      black := none,
      chess := ⟨[]⟩,
      timeControl := jsOr effectiveTc "none",
      clocks := match tc with
        | some (_, inc) =>
          some { w := timeMs, b := timeMs, increment := (inc : Int) * 1000,
                 lastMoveAt := none }
        | none => none,
      moves := [],
      status := Status.waiting,
      dbGameId := none,
      createdAt := now,
      cleanupTimer := false,
      disconnectTimer := none }
  let st1 := { st with rooms := aset st.rooms roomId room,
                       sessionRooms := aset st.sessionRooms sessionId roomId }
  (room, st1, sendTo st ws (fun c => Event.roomCreated c roomId Side.w))

/-- `getCurrentClockTime(room, side)`: the live display value; a JS falsy
`lastMoveAt` (null or 0) skips the deduction. -/
def getCurrentClockTime (now : Int) (room : Room) (side : Side) :
    Option Int :=
  match room.clocks with
  | none => none
  | some ck =>
    let base := ck.get side
    match ck.lastMoveAt with
    | some t =>
      if room.status = Status.playing ∧ room.chess.turn = side ∧ t ≠ 0 then
        some (max 0 (base - (now - t)))
      else some base
    | none => some base

/-- `attemptReconnect(ws, sessionId, room)` from src/rooms.js.  In the
source the reconnect frame reads the opponent slot without a null check;
both slots are occupied whenever a room is `playing`, so the missing-black
corner (which would throw in JS) is rendered with defaults. -/
def attemptReconnect (o : Oracle) (st : ServerState) (now : Int)
    (ws : Option ConnId) (sessionId : SessionId) (room : Room) :
    Option Room × ServerState × List Event :=
  match getPlayerSide room sessionId with
  | none =>
    (none, st,
     sendTo st ws (fun c => Event.errorFrame c "You are not a player in this room"))
  | some side =>
    let room1 := updatePlayerBySide room side
      (fun p => { p with ws := ws, connected := true, disconnectedAt := none })
    let room2 := { room1 with disconnectTimer := none }
    let clockPayload : Option (Int × Int) := match room2.clocks with
      | some _ => some ((getCurrentClockTime now room2 Side.w).getD 0,
                        (getCurrentClockTime now room2 Side.b).getD 0)
      | none => none
    let opp := getPlayerBySide room2 side.other
    let frameEvs := sendTo st ws (fun c =>
      Event.reconnectFrame c room2.id side (o.fen room2.chess.history)
        room2.timeControl (room2.moves.map (fun m => m.san)) clockPayload
        ((opp.map (fun p => p.name)).getD "")
        ((opp.map (fun p => p.connected)).getD false))
    let oppEvs := match opp with
      | some op => sendTo st op.ws (fun c => Event.opponentReconnected c)
      | none => []
    (some room2, st.setRoom room2.id room2, frameEvs ++ oppEvs)

/-- `joinRoom(ws, sessionId, name, roomId)` from src/rooms.js. -/
def joinRoom (o : Oracle) (st : ServerState) (now : Int) (ws : Option ConnId)
    (sessionId : SessionId) (name : Option String) (roomId : String) :
    Option Room × ServerState × List Event :=
  match alookup st.rooms (jsToUpper roomId) with
  | none =>
    (none, st, sendTo st ws (fun c => Event.errorFrame c "Room not found"))
  | some room =>
    if room.status ≠ Status.waiting then
      if room.status = Status.playing then
        attemptReconnect o st now ws sessionId room
      else
        (none, st,
         sendTo st ws (fun c => Event.errorFrame c "Room is not accepting players"))
    else if room.white.sessionId = sessionId then
      (none, st,
       sendTo st ws (fun c => Event.errorFrame c "You are already in this room"))
    else
      let room1 := { room with
        black := some { ws := ws, sessionId := sessionId,
                        name := jsOr name "Black", connected := true },
        status := Status.playing }
      let st1 := { st with sessionRooms := aset st.sessionRooms sessionId room1.id }
      let r2 := createGame st1 room1.timeControl (o.fen room1.chess.history)
        room1.white.name (jsOr name "Black")
      let room2 := { room1 with dbGameId := some r2.1 }
      let room3 := match room2.clocks with
        | some ck => { room2 with clocks := some { ck with lastMoveAt := some now } }
        | none => room2
      let st3 := (r2.2.1).setRoom room3.id room3
      let startFen := o.fen room3.chess.history
      let wEvs := sendTo st room3.white.ws (fun c =>
        Event.gameStart c room3.id startFen room3.timeControl Side.w
          (jsOr name "Black"))
      let bEvs := sendTo st ws (fun c =>
        Event.gameStart c room3.id startFen room3.timeControl Side.b
          room3.white.name)
      (some room3, st3, r2.2.2 ++ wEvs ++ bEvs)

/-- Steps 7 to 10 of the move pipeline (record, persist, broadcast, end
check), shared tail of `makeMove` after the clock update. -/
def makeMoveRest (o : Oracle) (st : ServerState) (now : Int) (roomId : String)
    (room : Room) (player : Player) (turn : Side) (nsan : San) (fen : Fen) :
    Option String × ServerState × List Event :=
  let moveRecord : MoveRecord :=
    { ply := room.moves.length, san := nsan, fen := fen, timestamp := now,
      side := turn }
  let room1 := { room with moves := room.moves ++ [moveRecord] }
  let dbEvs := match room1.dbGameId with
    | some g => [Event.dbAddMove g moveRecord]
    | none => []
  let clockPayload : Option (Int × Int) := match room1.clocks with
    | some ck => some (ck.w, ck.b)
    | none => none
  let oppEvs := match getPlayerBySide room1 turn.other with
    | some opp => sendTo st opp.ws (fun c => Event.moveFrame c nsan fen clockPayload)
    | none => []
  let ackEvs := match clockPayload with
    | some cp => sendTo st player.ws (fun c => Event.moveAck c cp)
    | none => []
  let st1 := st.setRoom roomId room1
  if o.isGameOver room1.chess.history then
    let rr : Option String × Option String :=
      if o.isCheckmate room1.chess.history then
        (some (if turn = Side.w then "1-0" else "0-1"), some "checkmate")
      else if o.isDraw room1.chess.history then
        (some "1/2-1/2",
         some (if o.isStalemate room1.chess.history then "stalemate"
           else if o.isThreefoldRepetition room1.chess.history then "repetition"
           else if o.isInsufficientMaterial room1.chess.history then "insufficient"
           else "fifty-move"))
      else (none, none)
    let r := finishGame st1 roomId room1 rr.1 rr.2
    (none, r.1, dbEvs ++ oppEvs ++ ackEvs ++ r.2)
  else
    (none, st1, dbEvs ++ oppEvs ++ ackEvs)

/-- `makeMove(sessionId, san)` from src/rooms.js.  Returns `some message`
for the `{ error }` result and `none` for `{ ok: true }`.  In the elapsed
time computation a null `lastMoveAt` coerces to 0, as JS subtraction does. -/
def makeMove (o : Oracle) (st : ServerState) (now : Int)
    (sessionId : SessionId) (san : San) :
    Option String × ServerState × List Event :=
  match alookup st.sessionRooms sessionId with
  | none => (some "Not in a room", st, [])
  | some roomId =>
    match alookup st.rooms roomId with
    | none => (some "Game not in progress", st, [])
    | some room =>
      if room.status ≠ Status.playing then
        (some "Game not in progress", st, [])
      else
        let turn := room.chess.turn
        match getPlayerBySide room turn with
        | none => (some "Not your turn", st, [])
        | some player =>
          if player.sessionId ≠ sessionId then (some "Not your turn", st, [])
          else
            match Engine.move o room.chess san with
            | none => (some "Invalid move", st, [])
            | some (nsan, chess1) =>
              let room1 := { room with chess := chess1 }
              let fen := o.fen chess1.history
              match room1.clocks with
              | some ck =>
                if 0 < room1.moves.length then
                  let elapsed := now - ck.lastMoveAt.getD 0
                  let v := ck.get turn - elapsed
                  if v ≤ 0 then
                    let room2 := { room1 with clocks := some (ck.set turn 0) }
                    let winner := turn.other
                    let result := if winner = Side.w then "1-0" else "0-1"
                    let r := finishGame st roomId room2 (some result) (some "timeout")
                    (none, r.1, r.2)
                  else
                    let ck1 := ck.set turn (v + ck.increment)
                    makeMoveRest o st now roomId
                      { room1 with clocks := some { ck1 with lastMoveAt := some now } }
                      player turn nsan fen
                else
                  makeMoveRest o st now roomId
                    { room1 with clocks := some { ck with lastMoveAt := some now } }
                    player turn nsan fen
              | none => makeMoveRest o st now roomId room1 player turn nsan fen

/-- `handleResign(sessionId)` from src/rooms.js. -/
def handleResign (st : ServerState) (sessionId : SessionId) :
    ServerState × List Event :=
  match alookup st.sessionRooms sessionId with
  | none => (st, [])
  | some roomId =>
    match alookup st.rooms roomId with
    | none => (st, [])
    | some room =>
      if room.status ≠ Status.playing then (st, [])
      else
        match getPlayerSide room sessionId with
        | none => (st, [])
        | some side =>
          let result := if side = Side.w then "0-1" else "1-0"
          finishGame st roomId room (some result) (some "resignation")

/-- `handleDisconnect(sessionId)` from src/rooms.js: marks the slot
disconnected, cleans up a waiting room, otherwise notifies the opponent and
arms the 60 s grace timer when none is armed (the armed value records the
side captured by the callback closure). -/
def handleDisconnect (st : ServerState) (now : Int) (sessionId : SessionId) :
    ServerState × List Event :=
  match alookup st.sessionRooms sessionId with
  | none => (st, [])
  | some roomId =>
    match alookup st.rooms roomId with
    | none => (st, [])
    | some room =>
      match getPlayerSide room sessionId with
      | none => (st, [])
      | some side =>
        let room1 := updatePlayerBySide room side (fun p =>
          { p with connected := false, ws := none, disconnectedAt := some now })
        if room1.status = Status.waiting then
          (cleanupRoom (st.setRoom roomId room1) roomId, [])
        else
          let evs := match getPlayerBySide room1 side.other with
            | some opp =>
              sendTo st opp.ws (fun c =>
                Event.opponentDisconnected c (DISCONNECT_GRACE_PERIOD / 1000))
            | none => []
          let room2 := if room1.disconnectTimer = none then
              { room1 with disconnectTimer := some side }
            else room1
          (st.setRoom roomId room2, evs)

/-- The callback of the disconnect grace timer armed in `handleDisconnect`:
re-checks that the captured side is still disconnected and the room still
playing before finalizing as abandoned. -/
def disconnectTimerFire (st : ServerState) (roomId : String) (side : Side) :
    ServerState × List Event :=
  match alookup st.rooms roomId with
  | none => (st, [])
  | some room =>
    match getPlayerBySide room side with
    | none => (st, [])
    | some p =>
      if ¬p.connected ∧ room.status = Status.playing then
        let result := if side = Side.w then "0-1" else "1-0"
        finishGame st roomId room (some result) (some "abandoned")
      else (st, [])

/-- `handleDrawOffer(sessionId)` from src/rooms.js. -/
def handleDrawOffer (st : ServerState) (sessionId : SessionId) :
    ServerState × List Event :=
  match alookup st.sessionRooms sessionId with
  | none => (st, [])
  | some roomId =>
    match alookup st.rooms roomId with
    | none => (st, [])
    | some room =>
      if room.status ≠ Status.playing then (st, [])
      else
        match getPlayerSide room sessionId with
        | none => (st, [])
        | some side =>
          let evs := match getPlayerBySide room side.other with
            | some opp => sendTo st opp.ws (fun c => Event.drawOffered c)
            | none => []
          (st, evs)

/-- `handleDrawResponse(sessionId, accept)` from src/rooms.js. -/
def handleDrawResponse (st : ServerState) (sessionId : SessionId)
    (accept : Bool) : ServerState × List Event :=
  match alookup st.sessionRooms sessionId with
  | none => (st, [])
  | some roomId =>
    match alookup st.rooms roomId with
    | none => (st, [])
    | some room =>
      if room.status ≠ Status.playing then (st, [])
      else
        match getPlayerSide room sessionId with
        | none => (st, [])
        | some side =>
          if accept then
            finishGame st roomId room (some "1/2-1/2") (some "agreement")
          else
            let evs := match getPlayerBySide room side.other with
              | some opp => sendTo st opp.ws (fun c => Event.drawDeclined c)
              | none => []
            (st, evs)

/-- `handleRematchOffer(sessionId)` from src/rooms.js. -/
def handleRematchOffer (st : ServerState) (sessionId : SessionId) :
    ServerState × List Event :=
  match alookup st.sessionRooms sessionId with
  | none => (st, [])
  | some roomId =>
    match alookup st.rooms roomId with
    | none => (st, [])
    | some room =>
      if room.status ≠ Status.finished then (st, [])
      else
        match getPlayerSide room sessionId with
        | none => (st, [])
        | some side =>
          let room1 := { room with rematchOfferedBy := some side }
          let evs := match getPlayerBySide room1 side.other with
            | some opp => sendTo st opp.ws (fun c => Event.rematchOffered c)
            | none => []
          (st.setRoom roomId room1, evs)

/-- `handleRematchResponse(sessionId, accept)` from src/rooms.js.  In the
decline branch the source computes the opponent from
`side === 'w' ? 'b' : 'w'`, so a null side selects white; in the accept
branch it reads both slots unconditionally (black is always occupied once a
room has finished, the missing-black corner would throw in JS). -/
def handleRematchResponse (o : Oracle) (st : ServerState) (now : Int)
    (sessionId : SessionId) (accept : Bool) : ServerState × List Event :=
  match alookup st.sessionRooms sessionId with
  | none => (st, [])
  | some roomId =>
    match alookup st.rooms roomId with
    | none => (st, [])
    | some room =>
      if room.status ≠ Status.finished then (st, [])
      else if ¬accept then
        let side := getPlayerSide room sessionId
        let oppSide := match side with
          | some Side.w => Side.b
          | _ => Side.w
        let evs := match getPlayerBySide room oppSide with
          | some opp => sendTo st opp.ws (fun c => Event.rematchDeclined c)
          | none => []
        (st, evs)
      else
        match room.black with
        | none => (st, [])
        | some oldBlack =>
          let oldWhite := room.white
          let newWhite : Player :=
            { ws := oldBlack.ws, sessionId := oldBlack.sessionId,
              name := oldBlack.name, connected := oldBlack.connected }
          let newBlack : Player :=
            { ws := oldWhite.ws, sessionId := oldWhite.sessionId,
              name := oldWhite.name, connected := oldWhite.connected }
          let clocks1 := match parseTimeControl (some room.timeControl) with
            | some (m, inc) =>
              let timeMs : Int := (m : Int) * 60 * 1000
              some { w := timeMs, b := timeMs, increment := (inc : Int) * 1000,
                     lastMoveAt := some now }
            | none => room.clocks
          let room1 : Room := { room with
            cleanupTimer := false,
            white := newWhite,
            black := some newBlack,
            chess := ⟨[]⟩,
            moves := [],
            status := Status.playing,
            rematchOfferedBy := none,
            clocks := clocks1 }
          let st1 := st.setRoom roomId room1
          let r2 := createGame st1 room1.timeControl (o.fen ([] : List San))
            newWhite.name newBlack.name
          let room2 := { room1 with dbGameId := some r2.1 }
          let st3 := (r2.2.1).setRoom roomId room2
          let startFen := o.fen ([] : List San)
          let wEvs := sendTo st room2.white.ws (fun c =>
            Event.rematchStart c room2.id startFen room2.timeControl Side.w
              newBlack.name)
          let bEvs := sendTo st newBlack.ws (fun c =>
            Event.rematchStart c room2.id startFen room2.timeControl Side.b
              newWhite.name)
          (st3, r2.2.2 ++ wEvs ++ bEvs)

/-! ## Matchmaker (src/matchmaking.js, the wildcard-aware implementation) -/

def DEFAULT_TC : String := "5+0"

/-- Remove the first entry of a queue whose session matches. -/
def removeFirst : List QueueEntry → SessionId → List QueueEntry
  | [], _ => []
  | p :: rest, sessionId =>
    if p.sessionId = sessionId then rest else p :: removeFirst rest sessionId

/-- `removeFromQueue(sessionId)`: splice the session out of whichever queue
holds it, deleting the queue when it empties; returns whether it was found. -/
def removeFromQueue : Queues → SessionId → Queues × Bool
  | [], _ => ([], false)
  | (tc, q) :: rest, sessionId =>
    if q.any (fun p => p.sessionId = sessionId) then
      let q1 := removeFirst q sessionId
      (if q1.isEmpty then rest else (tc, q1) :: rest, true)
    else
      let r := removeFromQueue rest sessionId
      ((tc, q) :: r.1, r.2)

/-- The wildcard branch of `findMatch`: scan the queues in insertion order
and pop the head of the first non-empty one, deleting it when it empties;
the effective time control is that queue tag, or the default when the tag
is also the wildcard. -/
def findAnyMatch : Queues → Option (QueueEntry × String) × Queues
  | [] => (none, [])
  | (qtc, q) :: rest =>
    match q with
    | [] =>
      let r := findAnyMatch rest
      (r.1, (qtc, q) :: r.2)
    | e :: q1 =>
      let qs1 := if q1.isEmpty then rest else (qtc, q1) :: rest
      (some (e, if qtc = "any" then DEFAULT_TC else qtc), qs1)

/-- Replace the queue stored under a tag, deleting it when empty (the shape
left behind by a JS in-place `shift` followed by a conditional `delete`). -/
def setOrDelete : Queues → String → List QueueEntry → Queues
  | [], _, _ => []
  | (tc1, q1) :: rest, tc, q =>
    if tc1 = tc then (if q.isEmpty then rest else (tc, q) :: rest)
    else (tc1, q1) :: setOrDelete rest tc q

/-- `findMatch(tc)` from src/matchmaking.js: wildcard callers scan all
queues; specific callers pop the same-tag queue first, then the wildcard
queue, and in both cases the match runs at the caller tag. -/
def findMatch (qs : Queues) (tc : String) :
    Option (QueueEntry × String) × Queues :=
  if tc = "any" then findAnyMatch qs
  else
    match alookup qs tc with
    | some (e :: q1) => (some (e, tc), setOrDelete qs tc q1)
    | _ =>
      match alookup qs "any" with
      | some (e :: q1) => (some (e, tc), setOrDelete qs "any" q1)
      | _ => (none, qs)

/-- Is the session waiting in any queue (the guard loop of `joinQueue`)? -/
def inAnyQueue (qs : Queues) (sessionId : SessionId) : Bool :=
  qs.any (fun p => p.2.any (fun e => e.sessionId = sessionId))

/-- Append a player to the queue of a tag, creating the queue when absent
(`if (!queues.has(tc)) queues.set(tc, []); queues.get(tc).push(player)`). -/
def qpush : Queues → String → QueueEntry → Queues
  | [], tc, e => [(tc, [e])]
  | (tc1, q) :: rest, tc, e =>
    if tc1 = tc then (tc1, q ++ [e]) :: rest
    else (tc1, q) :: qpush rest tc e

def qsize (qs : Queues) : Nat := (qs.map (fun p => p.2.length)).sum

theorem removeFirst_length_le (q : List QueueEntry) (s : SessionId) :
    (removeFirst q s).length ≤ q.length := by
  induction q with
  | nil => simp [removeFirst]
  | cons p rest ih =>
    simp only [removeFirst]
    split
    · exact Nat.le_succ _
    · simp only [List.length_cons]
      omega

theorem removeFromQueue_qsize_le (qs : Queues) (s : SessionId) :
    qsize (removeFromQueue qs s).1 ≤ qsize qs := by
  induction qs with
  | nil => simp [removeFromQueue]
  | cons p rest ih =>
    obtain ⟨tc, q⟩ := p
    simp only [removeFromQueue]
    split
    · split
      · simp only [qsize, List.map_cons, List.sum_cons]
        exact Nat.le_add_left _ _
      · simp only [qsize, List.map_cons, List.sum_cons]
        exact Nat.add_le_add_right (removeFirst_length_le q s) _
    · simp only [qsize, List.map_cons, List.sum_cons]
      exact Nat.add_le_add_left ih _

theorem findAnyMatch_some_qsize (qs : Queues) (x : QueueEntry × String)
    (qs1 : Queues) (h : findAnyMatch qs = (some x, qs1)) :
    qsize qs1 + 1 = qsize qs := by
  induction qs generalizing x qs1 with
  | nil => simp [findAnyMatch] at h
  | cons p rest ih =>
    obtain ⟨qtc, q⟩ := p
    match hq : q with
    | [] =>
      simp only [findAnyMatch] at h
      injection h with h1 h2
      have hr : findAnyMatch rest = (some x, (findAnyMatch rest).2) := by
        rw [← h1]
      have := ih x (findAnyMatch rest).2 hr
      subst h2
      simp only [qsize, List.map_cons, List.sum_cons, List.length_nil] at this ⊢
      omega
    | e :: q1 =>
      simp only [findAnyMatch] at h
      injection h with h1 h2
      subst h2
      cases q1 with
      | nil => (simp [qsize]; omega)
      | cons f q2 => (simp [qsize]; omega)

theorem setOrDelete_qsize (qs : Queues) (tc : String) (e : QueueEntry)
    (q1 : List QueueEntry) (h : alookup qs tc = some (e :: q1)) :
    qsize (setOrDelete qs tc q1) + 1 = qsize qs := by
  induction qs with
  | nil => simp [alookup] at h
  | cons p rest ih =>
    obtain ⟨tc0, q0⟩ := p
    simp only [alookup] at h
    simp only [setOrDelete]
    by_cases htc : tc0 = tc
    · simp only [htc, if_pos rfl] at h ⊢
      have hq0 : q0 = e :: q1 := by simpa using h
      subst hq0
      cases q1 with
      | nil => (simp [qsize]; omega)
      | cons f q2 => (simp [qsize]; omega)
    · simp only [if_neg htc] at h ⊢
      have := ih h
      simp only [qsize, List.map_cons, List.sum_cons] at this ⊢
      omega

theorem findMatch_some_qsize (qs : Queues) (tc : String)
    (x : QueueEntry × String) (qs1 : Queues)
    (h : findMatch qs tc = (some x, qs1)) : qsize qs1 + 1 = qsize qs := by
  unfold findMatch at h
  by_cases hany : tc = "any"
  · rw [if_pos hany] at h
    exact findAnyMatch_some_qsize qs x qs1 h
  · rw [if_neg hany] at h
    match h1 : alookup qs tc with
    | some (e :: q1) =>
      rw [h1] at h
      obtain ⟨ha, hb⟩ := Prod.mk.injEq .. ▸ h
      subst hb
      exact setOrDelete_qsize qs tc e q1 h1
    | some [] =>
      rw [h1] at h
      match h2 : alookup qs "any" with
      | some (e :: q1) =>
        rw [h2] at h
        obtain ⟨ha, hb⟩ := Prod.mk.injEq .. ▸ h
        subst hb
        exact setOrDelete_qsize qs "any" e q1 h2
      | some [] => rw [h2] at h; simp at h
      | none => rw [h2] at h; simp at h
    | none =>
      rw [h1] at h
      match h2 : alookup qs "any" with
      | some (e :: q1) =>
        rw [h2] at h
        obtain ⟨ha, hb⟩ := Prod.mk.injEq .. ▸ h
        subst hb
        exact setOrDelete_qsize qs "any" e q1 h2
      | some [] => rw [h2] at h; simp at h
      | none => rw [h2] at h; simp at h

/-- `joinQueue(ws, sessionId, name, timeControl)` from src/matchmaking.js.
The colour coin flip and the room code that `createRoom` would generate are
supplied as the `coin` and `code` arguments (neither is consumed before the
dead-opponent retry, which re-invokes the function recursively as in the
source). -/
def joinQueue (o : Oracle) (st : ServerState) (now : Int)
    (ws : Option ConnId) (sessionId : SessionId) (name : Option String)
    (timeControl : Option String) (coin : Bool) (code : String) :
    ServerState × List Event :=
  let tc := jsOr timeControl DEFAULT_TC
  if inAnyQueue st.queues sessionId then
    (st, sendTo st ws (fun c => Event.errorFrame c "Already in queue"))
  else if (getRoomForSession st sessionId).isSome then
    (st, sendTo st ws (fun c => Event.errorFrame c "Already in a game"))
  else
    let player : QueueEntry :=
      { ws := ws, sessionId := sessionId, name := jsOr name "Player" }
    match hm : findMatch st.queues tc with
    | (some om, qs1) =>
      let st1 := { st with queues := qs1 }
      let oppAlive := match om.1.ws with
        | some c => st.openConns.contains c
        | none => false
      if oppAlive then
        let whitePlayer := if coin then om.1 else player
        let blackPlayer := if coin then player else om.1
        let r1 := createRoom st1 now whitePlayer.ws whitePlayer.sessionId
          (some whitePlayer.name) (some om.2) code
        let r2 := joinRoom o r1.2.1 now blackPlayer.ws blackPlayer.sessionId
          (some blackPlayer.name) r1.1.id
        (r2.2.1, r1.2.2 ++ r2.2.2)
      else
        let qs2 := (removeFromQueue qs1 om.1.sessionId).1
        joinQueue o { st1 with queues := qs2 } now ws sessionId name
          timeControl coin code
    | (none, _) =>
      let qs1 := qpush st.queues tc player
      let pos := ((alookup qs1 tc).getD []).length
      ({ st with queues := qs1 },
       sendTo st ws (fun c => Event.queueJoined c tc pos))
termination_by qsize st.queues
decreasing_by
  have h1 := findMatch_some_qsize st.queues (jsOr timeControl DEFAULT_TC) om qs1 hm
  have h2 := removeFromQueue_qsize_le qs1 om.1.sessionId
  omega

/-- `leaveQueue(sessionId)` from src/matchmaking.js. -/
def leaveQueue (st : ServerState) (sessionId : SessionId) :
    ServerState × Bool :=
  let r := removeFromQueue st.queues sessionId
  ({ st with queues := r.1 }, r.2)

/-! ## WebSocket routing layer -/

/-- The `auth` handshake path: bind the connection to the session and, when
the session is already seated in a playing room, route into reconnection
(`joinRoom`, which dispatches to `attemptReconnect`). -/
def wsAuth (o : Oracle) (st : ServerState) (now : Int) (conn : ConnId)
    (sessionId : SessionId) : ServerState × List Event :=
  let st1 := { st with connections := aset st.connections conn sessionId }
  let r := match getRoomForSession st1 sessionId with
    | some room =>
      if room.status = Status.playing then
        let r1 := joinRoom o st1 now (some conn) sessionId none room.id
        (r1.2.1, r1.2.2)
      else (st1, ([] : List Event))
    | none => (st1, ([] : List Event))
  (r.1, r.2 ++ sendTo r.1 (some conn) (fun c => Event.authOk c))

/-- The `move` message route: require a truthy `san`, call `makeMove`, and
surface an error result as an error frame to the sender. -/
def wsHandleMove (o : Oracle) (st : ServerState) (now : Int) (conn : ConnId)
    (sessionId : SessionId) (san : Option String) :
    ServerState × List Event :=
  match san with
  | none => (st, sendTo st (some conn) (fun c => Event.errorFrame c "san required"))
  | some s =>
    if s = "" then
      (st, sendTo st (some conn) (fun c => Event.errorFrame c "san required"))
    else
      let r := makeMove o st now sessionId s
      match r.1 with
      | some msg =>
        (r.2.1, r.2.2 ++ sendTo r.2.1 (some conn) (fun c => Event.errorFrame c msg))
      | none => (r.2.1, r.2.2)

/-- The connection `close` handler: the socket is closed (removed from the
open set first), then, when the connection had authenticated a session,
`rooms.handleDisconnect` and `matchmaking.handleDisconnect` run and the
connection binding is dropped. -/
def wsHandleClose (st : ServerState) (now : Int) (conn : ConnId) :
    ServerState × List Event :=
  let st0 := { st with openConns := st.openConns.filter (fun c => c ≠ conn) }
  match alookup st0.connections conn with
  | none => (st0, [])
  | some sessionId =>
    let r1 := handleDisconnect st0 now sessionId
    let r2 := leaveQueue r1.1 sessionId
    ({ r2.1 with connections := adelete r2.1.connections conn }, r1.2)

/-! ## Generic lemmas about the association-list maps -/

theorem alookup_aset_self {κ α : Type} [DecidableEq κ]
    (l : List (κ × α)) (k : κ) (v : α) : alookup (aset l k v) k = some v := by
  induction l with
  | nil => simp [aset, alookup]
  | cons p rest ih =>
    obtain ⟨k1, v1⟩ := p
    by_cases hk : k1 = k
    · simp [aset, alookup, hk]
    · simp [aset, alookup, hk, ih]

theorem alookup_aset_ne {κ α : Type} [DecidableEq κ]
    (l : List (κ × α)) (k k1 : κ) (v : α) (h : k1 ≠ k) :
    alookup (aset l k v) k1 = alookup l k1 := by
  have h2 : k ≠ k1 := Ne.symm h
  induction l with
  | nil => simp [aset, alookup, h2]
  | cons p rest ih =>
    obtain ⟨k0, v0⟩ := p
    by_cases hk : k0 = k
    · subst hk
      simp [aset, alookup, h2]
    · simp only [aset, if_neg hk, alookup]
      by_cases hk1 : k0 = k1
      · simp [hk1]
      · simp [hk1, ih]

theorem aset_aset {κ α : Type} [DecidableEq κ]
    (l : List (κ × α)) (k : κ) (v v1 : α) :
    aset (aset l k v) k v1 = aset l k v1 := by
  induction l with
  | nil => simp [aset]
  | cons p rest ih =>
    obtain ⟨k0, v0⟩ := p
    by_cases hk : k0 = k
    · simp [aset, hk]
    · simp [aset, hk, ih]

/-! ## Fixtures: a concrete engine oracle and concrete states -/

/-- A tiny concrete instance of the external engine, enough to drive the
opening moves of a game; all terminal predicates are false. -/
def testOracle : Oracle :=
  { legal := fun hist san =>
      match hist, san with
      | [], "e4" => some "e4"
      | ["e4"], "e5" => some "e5"
      | ["e4", "e5"], "Nf3" => some "Nf3"
      | _, _ => none,
    fen := fun hist => String.intercalate "," hist,
    isGameOver := fun _ => false,
    isCheckmate := fun _ => false,
    isDraw := fun _ => false,
    isStalemate := fun _ => false,
    isThreefoldRepetition := fun _ => false,
    isInsufficientMaterial := fun _ => false }

def alice : Player :=
  { ws := some 1, sessionId := "S_A", name := "Alice", connected := true }

def bob : Player :=
  { ws := some 2, sessionId := "S_B", name := "Bob", connected := true }

/-- A clocked playing room after the opening move e4 (time control 1+2,
white moved at t = 1000). -/
def roomPlay : Room :=
  { id := "ROOM01", white := alice, black := some bob, chess := ⟨["e4"]⟩,
    timeControl := "1+2",
    clocks := some { w := 60000, b := 60000, increment := 2000,
                     lastMoveAt := some 1000 },
    moves := [{ ply := 0, san := "e4", fen := "e4", timestamp := 1000,
                side := Side.w }],
    status := Status.playing, dbGameId := some 1, createdAt := 0,
    cleanupTimer := false, disconnectTimer := none }

def stPlay : ServerState :=
  { rooms := [("ROOM01", roomPlay)],
    sessionRooms := [("S_A", "ROOM01"), ("S_B", "ROOM01")],
    queues := [], connections := [(1, "S_A"), (2, "S_B")],
    openConns := [1, 2], nextDbId := 2 }

/-- The same room before any move was played (fresh from `joinRoom` at
t = 0). -/
def roomPlay0 : Room :=
  { roomPlay with
    chess := { history := [] },
    moves := [],
    clocks := some { w := 60000, b := 60000, increment := 2000,
                     lastMoveAt := some 0 } }

def stPlay0 : ServerState :=
  { stPlay with rooms := [("ROOM01", roomPlay0)] }

/-- A finished clocked room (white resigned after e4). -/
def roomFin : Room :=
  { roomPlay with status := Status.finished, cleanupTimer := true }

def stFin : ServerState :=
  { stPlay with rooms := [("ROOM01", roomFin)] }

/-! ## Helper predicates and lemmas for the move pipeline -/

/-- Outputs of the pipeline steps that follow the clock update in
`makeMove`: the AppendMove persistence call and the move and move_ack
frames. -/
def isMovePipelineOutput : Event → Bool
  | .dbAddMove _ _ => true
  | .moveFrame _ _ _ _ => true
  | .moveAck _ _ => true
  | _ => false

def noMoveOutput (evs : List Event) : Bool :=
  evs.all (fun e => !(isMovePipelineOutput e))

theorem noMoveOutput_append (a b : List Event) :
    noMoveOutput (a ++ b) = (noMoveOutput a && noMoveOutput b) := by
  simp [noMoveOutput, List.all_append]

theorem noMoveOutput_sendTo (st : ServerState) (ws : Option ConnId)
    (f : ConnId → Event) (h : ∀ c, isMovePipelineOutput (f c) = false) :
    noMoveOutput (sendTo st ws f) = true := by
  rcases ws with _ | c
  · rfl
  · simp only [sendTo]
    by_cases hc : st.openConns.contains c <;> simp [hc, noMoveOutput, h]

/-- Steps 7 to 10 of the pipeline store a room that extends the move log by
exactly the new record and leaves engine and clocks as handed to them. -/
theorem makeMoveRest_room (o : Oracle) (st : ServerState) (now : Int)
    (rid : String) (room : Room) (player : Player) (turn : Side) (nsan : San)
    (fen : Fen) :
    (makeMoveRest o st now rid room player turn nsan fen).1 = none ∧
    ∃ room1,
      alookup (makeMoveRest o st now rid room player turn nsan fen).2.1.rooms
          rid = some room1 ∧
        room1.moves = room.moves ++
          [{ ply := room.moves.length, san := nsan, fen := fen,
             timestamp := now, side := turn }] ∧
        room1.chess = room.chess ∧ room1.clocks = room.clocks := by
  unfold makeMoveRest
  by_cases hg : o.isGameOver room.chess.history <;>
    simp [hg, finishGame, ServerState.setRoom, aset_aset, alookup_aset_self]

/-! ## Claim theorems -/

/-- C2: in a clocked playing room with at least one recorded move, a legal
move whose elapsed-time deduction drives the mover at or below zero clamps
the mover clock to exactly 0, immediately finalizes the room as a timeout
with the opponent colour as result, and runs none of the later pipeline
steps: the move log is unchanged, no AppendMove call is made, and no move
or move_ack frame is sent. -/
theorem claimC2_timeout_short_circuit (o : Oracle) (st : ServerState)
    (now : Int) (s : SessionId) (san nsan : San) (rid : String) (room : Room)
    (player : Player) (ck : Clocks) (g : Nat)
    (h1 : alookup st.sessionRooms s = some rid)
    (h2 : alookup st.rooms rid = some room)
    (h3 : room.status = Status.playing)
    (h4 : getPlayerBySide room room.chess.turn = some player)
    (h5 : player.sessionId = s)
    (h6 : o.legal room.chess.history san = some nsan)
    (h7 : room.clocks = some ck)
    (h8 : 0 < room.moves.length)
    (h9 : ck.get room.chess.turn - (now - ck.lastMoveAt.getD 0) ≤ 0)
    (h10 : room.dbGameId = some g) :
    (makeMove o st now s san).1 = none ∧
    (∃ room1,
      alookup (makeMove o st now s san).2.1.rooms rid = some room1 ∧
        room1.status = Status.finished ∧
        room1.clocks = some (ck.set room.chess.turn 0) ∧
        room1.moves = room.moves ∧
        room1.chess.history = room.chess.history ++ [nsan]) ∧
    Event.dbEndGame g
        (some (if room.chess.turn = Side.w then "0-1" else "1-0"))
        (some "timeout") ∈ (makeMove o st now s san).2.2 ∧
    noMoveOutput (makeMove o st now s san).2.2 = true := by
  have hres : (if room.chess.turn.other = Side.w then "1-0" else "0-1")
      = (if room.chess.turn = Side.w then "0-1" else "1-0") := by
    cases room.chess.turn <;> rfl
  simp only [makeMove, h1, h2, h3, h4, h5, h6, h7, h10, Engine.move,
    ne_eq, not_true_eq_false, if_false]
  rw [if_pos h8, if_pos h9]
  simp only [finishGame, ServerState.setRoom, hres]
  refine ⟨by trivial,
    ⟨_, alookup_aset_self _ _ _, by trivial, by trivial, by trivial, by trivial⟩,
    ?_, ?_⟩
  · rcases room.black with _ | bp
    · simp [sendTo]
    · simp [sendTo]
  · rcases room.black with _ | bp
    · simp [noMoveOutput, sendTo, isMovePipelineOutput]
      rcases room.white.ws with _ | c
      · simp
      · by_cases hc : st.openConns.contains c <;> simp [hc, isMovePipelineOutput]
    · simp [noMoveOutput, sendTo, isMovePipelineOutput]
      rcases room.white.ws with _ | c
      · rcases bp.ws with _ | c2
        · simp
        · by_cases hc2 : st.openConns.contains c2 <;>
            simp [hc2, isMovePipelineOutput]
      · rcases bp.ws with _ | c2
        · by_cases hc : st.openConns.contains c <;>
            simp [hc, isMovePipelineOutput]
        · by_cases hc : st.openConns.contains c <;>
            by_cases hc2 : st.openConns.contains c2 <;>
            simp [hc, hc2, isMovePipelineOutput]

/-- Witness for C2 at a concrete state: black answers at t = 70000 having
had the clock run since t = 1000 on a 60 s clock. -/
theorem claimC2_timeout_short_circuit_witness :
    (makeMove testOracle stPlay 70000 "S_B" "e5").1 = none ∧
    (∃ room1,
      alookup (makeMove testOracle stPlay 70000 "S_B" "e5").2.1.rooms "ROOM01"
          = some room1 ∧
        room1.status = Status.finished ∧
        room1.clocks = some (Clocks.set
          { w := 60000, b := 60000, increment := 2000, lastMoveAt := some 1000 }
          roomPlay.chess.turn 0) ∧
        room1.moves = roomPlay.moves ∧
        room1.chess.history = roomPlay.chess.history ++ ["e5"]) ∧
    Event.dbEndGame 1
        (some (if roomPlay.chess.turn = Side.w then "0-1" else "1-0"))
        (some "timeout") ∈ (makeMove testOracle stPlay 70000 "S_B" "e5").2.2 ∧
    noMoveOutput (makeMove testOracle stPlay 70000 "S_B" "e5").2.2 = true :=
  claimC2_timeout_short_circuit testOracle stPlay 70000 "S_B" "e5" "e5"
    "ROOM01" roomPlay bob
    { w := 60000, b := 60000, increment := 2000, lastMoveAt := some 1000 } 1
    (by decide) (by decide) (by decide) (by decide) (by decide) (by decide)
    (by decide) (by decide) (by decide) (by decide)

/-- C3: for a legal move in a clocked playing room, the first recorded move
changes no clock value and only stamps lastMoveAt with the move time; any
later non-flagging move sets the mover clock to old minus elapsed
(now - lastMoveAt) plus increment in exact integer milliseconds, leaves the
opponent clock untouched, and stamps lastMoveAt. -/
theorem claimC3_clock_update (o : Oracle) (st : ServerState) (now : Int)
    (s : SessionId) (san nsan : San) (rid : String) (room : Room)
    (player : Player) (ck : Clocks) (t : Int)
    (h1 : alookup st.sessionRooms s = some rid)
    (h2 : alookup st.rooms rid = some room)
    (h3 : room.status = Status.playing)
    (h4 : getPlayerBySide room room.chess.turn = some player)
    (h5 : player.sessionId = s)
    (h6 : o.legal room.chess.history san = some nsan)
    (h7 : room.clocks = some ck) :
    (room.moves.length = 0 →
      ∃ room1,
        alookup (makeMove o st now s san).2.1.rooms rid = some room1 ∧
          room1.clocks = some { ck with lastMoveAt := some now }) ∧
    (ck.lastMoveAt = some t → 0 < room.moves.length →
      0 < ck.get room.chess.turn - (now - t) →
      ∃ room1,
        alookup (makeMove o st now s san).2.1.rooms rid = some room1 ∧
          room1.clocks = some { ck.set room.chess.turn
              (ck.get room.chess.turn - (now - t) + ck.increment) with
            lastMoveAt := some now }) := by
  constructor
  · intro hlen
    simp only [makeMove, h1, h2, h3, h4, h5, h6, h7, Engine.move,
      ne_eq, not_true_eq_false, if_false]
    rw [if_neg (by omega : ¬ 0 < room.moves.length)]
    obtain ⟨-, room1, ha, hm, hc, hck⟩ :=
      makeMoveRest_room o st now rid _ player room.chess.turn nsan
        (o.fen (room.chess.history ++ [nsan]))
    exact ⟨room1, ha, by rw [hck]⟩
  · intro hlast hlen hpos
    simp only [makeMove, h1, h2, h3, h4, h5, h6, h7, Engine.move,
      ne_eq, not_true_eq_false, if_false, hlast, Option.getD_some]
    rw [if_pos hlen,
      if_neg (by omega : ¬ ck.get room.chess.turn - (now - t) ≤ 0)]
    obtain ⟨-, room1, ha, hm, hc, hck⟩ :=
      makeMoveRest_room o st now rid _ player room.chess.turn nsan
        (o.fen (room.chess.history ++ [nsan]))
    exact ⟨room1, ha, by rw [hck]⟩

/-- Witness for C3: the opening move at t = 1000 leaves both clocks at
60000 and stamps lastMoveAt; the reply at t = 5000 (4000 ms elapsed,
2000 ms increment) leaves black at 58000. -/
theorem claimC3_clock_update_witness :
    (∃ room1,
      alookup (makeMove testOracle stPlay0 1000 "S_A" "e4").2.1.rooms "ROOM01"
          = some room1 ∧
        room1.clocks = some { w := 60000, b := 60000, increment := 2000,
                              lastMoveAt := some 1000 }) ∧
    (∃ room1,
      alookup (makeMove testOracle stPlay 5000 "S_B" "e5").2.1.rooms "ROOM01"
          = some room1 ∧
        room1.clocks = some { w := 60000, b := 58000, increment := 2000,
                              lastMoveAt := some 5000 }) := by
  constructor
  · obtain ⟨r1, ha, hc⟩ :=
      (claimC3_clock_update testOracle stPlay0 1000 "S_A" "e4" "e4" "ROOM01"
        roomPlay0 alice
        { w := 60000, b := 60000, increment := 2000, lastMoveAt := some 0 } 0
        (by decide) (by decide) (by decide) (by decide) (by decide)
        (by decide) (by decide)).1 (by decide)
    refine ⟨r1, ha, ?_⟩
    rw [hc]
  · obtain ⟨r1, ha, hc⟩ :=
      (claimC3_clock_update testOracle stPlay 5000 "S_B" "e5" "e5" "ROOM01"
        roomPlay bob
        { w := 60000, b := 60000, increment := 2000, lastMoveAt := some 1000 }
        1000
        (by decide) (by decide) (by decide) (by decide) (by decide)
        (by decide) (by decide)).2 (by decide) (by decide) (by decide)
    refine ⟨r1, ha, ?_⟩
    rw [hc]
    decide

/-- The flagging condition of the move pipeline: the room is clocked, a
move is already recorded, and deducting the elapsed time leaves the side to
move at or below zero. -/
def flagsOnMove (room : Room) (now : Int) : Bool :=
  match room.clocks with
  | some ck =>
    decide (0 < room.moves.length) &&
      decide (ck.get room.chess.turn - (now - ck.lastMoveAt.getD 0) ≤ 0)
  | none => false

/-- Reachable scenario refuting C1: a 1+0 room is created and joined at
t = 0, white plays e4 at t = 1000, black answers at t = 70000 and flags. -/
def c1sA : ServerState := { initState with openConns := [1, 2] }

def c1sB : ServerState :=
  (createRoom c1sA 0 (some 1) "S_A" (some "Alice") (some "1+0") "ROOMAA").2.1

def c1sC : ServerState :=
  (joinRoom testOracle c1sB 0 (some 2) "S_B" (some "Bob") "ROOMAA").2.1

def c1sD : ServerState := (makeMove testOracle c1sC 1000 "S_A" "e4").2.1

def c1final : Option String × ServerState × List Event :=
  makeMove testOracle c1sD 70000 "S_B" "e5"

/-- C1 counterexample: in a state reached from the initial state by
create, join and one move, a makeMove that finalizes the game as a timeout
leaves the move log one entry short of the rule-engine ply count (1 move
logged, 2 plies applied), so the claimed invariant fails exactly there. -/
theorem claimC1_counterexample :
    Event.dbEndGame 1 (some "1-0") (some "timeout") ∈ c1final.2.2 ∧
    (alookup c1final.2.1.rooms "ROOMAA").map
        (fun r => (r.status, r.moves.length, r.chess.history.length))
      = some (Status.finished, 1, 2) := by decide

/-- C1 amended: a successful makeMove preserves the equality of move-log
length and engine ply count except when it finalizes the game as a timeout;
in that one case the flagging move is applied to the engine but never
appended, leaving the engine exactly one ply ahead of the move log. -/
theorem claimC1_ply_count_amended (o : Oracle) (st : ServerState) (now : Int)
    (s : SessionId) (san nsan : San) (rid : String) (room : Room)
    (player : Player)
    (h1 : alookup st.sessionRooms s = some rid)
    (h2 : alookup st.rooms rid = some room)
    (h3 : room.status = Status.playing)
    (h4 : getPlayerBySide room room.chess.turn = some player)
    (h5 : player.sessionId = s)
    (h6 : o.legal room.chess.history san = some nsan)
    (hinv : room.moves.length = room.chess.history.length) :
    (makeMove o st now s san).1 = none ∧
    ∃ room1,
      alookup (makeMove o st now s san).2.1.rooms rid = some room1 ∧
        (if flagsOnMove room now then
          room1.chess.history.length = room1.moves.length + 1
        else room1.moves.length = room1.chess.history.length) := by
  rcases hck : room.clocks with _ | ck
  · have hfl : flagsOnMove room now = false := by simp [flagsOnMove, hck]
    simp only [makeMove, h1, h2, h3, h4, h5, h6, hck, Engine.move,
      ne_eq, not_true_eq_false, if_false, hfl]
    obtain ⟨hnone, room1, ha, hm, hc, -⟩ :=
      makeMoveRest_room o st now rid _ player room.chess.turn nsan
        (o.fen (room.chess.history ++ [nsan]))
    refine ⟨hnone, room1, ha, ?_⟩
    simp [hm, hc, hinv]
  · by_cases hlen : 0 < room.moves.length
    · by_cases hflag :
          ck.get room.chess.turn - (now - ck.lastMoveAt.getD 0) ≤ 0
      · have hfl : flagsOnMove room now = true := by
          simp [flagsOnMove, hck, hlen, hflag]
        simp only [makeMove, h1, h2, h3, h4, h5, h6, hck, Engine.move,
          ne_eq, not_true_eq_false, if_false, hfl, if_true]
        rw [if_pos hlen, if_pos hflag]
        simp only [finishGame, ServerState.setRoom]
        refine ⟨by trivial, _, alookup_aset_self _ _ _, ?_⟩
        simp [hinv]
      · have hfl : flagsOnMove room now = false := by
          simp [flagsOnMove, hck, hflag]
        simp only [makeMove, h1, h2, h3, h4, h5, h6, hck, Engine.move,
          ne_eq, not_true_eq_false, if_false, hfl]
        rw [if_pos hlen, if_neg hflag]
        obtain ⟨hnone, room1, ha, hm, hc, -⟩ :=
          makeMoveRest_room o st now rid _ player room.chess.turn nsan
            (o.fen (room.chess.history ++ [nsan]))
        refine ⟨hnone, room1, ha, ?_⟩
        simp [hm, hc, hinv]
    · have hfl : flagsOnMove room now = false := by
        simp only [flagsOnMove, hck]
        simp [hlen]
      simp only [makeMove, h1, h2, h3, h4, h5, h6, hck, Engine.move,
        ne_eq, not_true_eq_false, if_false, hfl]
      rw [if_neg hlen]
      obtain ⟨hnone, room1, ha, hm, hc, -⟩ :=
        makeMoveRest_room o st now rid _ player room.chess.turn nsan
          (o.fen (room.chess.history ++ [nsan]))
      refine ⟨hnone, room1, ha, ?_⟩
      simp [hm, hc, hinv]

/-- Witness for the amended C1 at the flagging input: black answers at
t = 70000 on a 60 s clock last stamped at t = 1000. -/
theorem claimC1_ply_count_amended_witness :
    (makeMove testOracle stPlay 70000 "S_B" "e5").1 = none ∧
    ∃ room1,
      alookup (makeMove testOracle stPlay 70000 "S_B" "e5").2.1.rooms
          "ROOM01" = some room1 ∧
        (if flagsOnMove roomPlay 70000 then
          room1.chess.history.length = room1.moves.length + 1
        else room1.moves.length = room1.chess.history.length) :=
  claimC1_ply_count_amended testOracle stPlay 70000 "S_B" "e5" "e5" "ROOM01"
    roomPlay bob (by decide) (by decide) (by decide) (by decide) (by decide)
    (by decide) (by decide)

/-- C4: every failing check of the move pipeline (sender not bound to a
room, room missing or not playing, sender not the side to move, SAN
rejected by the engine) sends exactly one error frame with the
corresponding message to the sender and leaves the server state, and in
particular position, move log, clocks, status and persistence, exactly
unchanged. -/
theorem claimC4_error_paths (o : Oracle) (st : ServerState) (now : Int)
    (conn : ConnId) (s : SessionId) (san : String) (rid : String)
    (room : Room) (player : Player)
    (hopen : st.openConns.contains conn = true)
    (hsan : san ≠ "") :
    (alookup st.sessionRooms s = none →
      wsHandleMove o st now conn s (some san)
        = (st, [Event.errorFrame conn "Not in a room"])) ∧
    (alookup st.sessionRooms s = some rid → alookup st.rooms rid = none →
      wsHandleMove o st now conn s (some san)
        = (st, [Event.errorFrame conn "Game not in progress"])) ∧
    (alookup st.sessionRooms s = some rid → alookup st.rooms rid = some room →
      room.status ≠ Status.playing →
      wsHandleMove o st now conn s (some san)
        = (st, [Event.errorFrame conn "Game not in progress"])) ∧
    (alookup st.sessionRooms s = some rid → alookup st.rooms rid = some room →
      room.status = Status.playing →
      getPlayerBySide room room.chess.turn = none →
      wsHandleMove o st now conn s (some san)
        = (st, [Event.errorFrame conn "Not your turn"])) ∧
    (alookup st.sessionRooms s = some rid → alookup st.rooms rid = some room →
      room.status = Status.playing →
      getPlayerBySide room room.chess.turn = some player →
      player.sessionId ≠ s →
      wsHandleMove o st now conn s (some san)
        = (st, [Event.errorFrame conn "Not your turn"])) ∧
    (alookup st.sessionRooms s = some rid → alookup st.rooms rid = some room →
      room.status = Status.playing →
      getPlayerBySide room room.chess.turn = some player →
      player.sessionId = s → o.legal room.chess.history san = none →
      wsHandleMove o st now conn s (some san)
        = (st, [Event.errorFrame conn "Invalid move"])) := by
  have hopen2 : conn ∈ st.openConns := by simpa using hopen
  refine ⟨?_, ?_, ?_, ?_, ?_, ?_⟩
  · intro ha
    simp [wsHandleMove, if_neg hsan, makeMove, ha, sendTo, hopen, hopen2]
  · intro ha hb
    simp [wsHandleMove, if_neg hsan, makeMove, ha, hb, sendTo, hopen, hopen2]
  · intro ha hb hc
    simp [wsHandleMove, if_neg hsan, makeMove, ha, hb, hc, sendTo, hopen,
      hopen2]
  · intro ha hb hc hd
    simp [wsHandleMove, if_neg hsan, makeMove, ha, hb, hc, hd, sendTo, hopen,
      hopen2]
  · intro ha hb hc hd he
    simp [wsHandleMove, if_neg hsan, makeMove, ha, hb, hc, hd, he, sendTo,
      hopen, hopen2]
  · intro ha hb hc hd he hf
    simp [wsHandleMove, if_neg hsan, makeMove, ha, hb, hc, hd, he, hf,
      Engine.move, sendTo, hopen, hopen2]

/-- Witness for C4: an unknown session gets a Not in a room error, and a
rejected SAN from the seated mover gets an Invalid move error, both with
the state unchanged. -/
theorem claimC4_error_paths_witness :
    wsHandleMove testOracle stPlay 0 1 "S_X" (some "e4")
      = (stPlay, [Event.errorFrame 1 "Not in a room"]) ∧
    wsHandleMove testOracle stPlay 0 2 "S_B" (some "zz")
      = (stPlay, [Event.errorFrame 2 "Invalid move"]) :=
  ⟨(claimC4_error_paths testOracle stPlay 0 1 "S_X" "e4" "" roomPlay alice
      (by decide) (by decide)).1 (by decide),
   (claimC4_error_paths testOracle stPlay 0 2 "S_B" "zz" "ROOM01" roomPlay
      bob (by decide) (by decide)).2.2.2.2.2
     (by decide) (by decide) (by decide) (by decide) (by decide) (by decide)⟩

/-- A playing scenario reached through the transport layer: A authenticates
connection 1 and creates a 5+0 room, B authenticates connection 2 and
joins, then B authenticates a fresh connection 3 which takes over the seat
through the reconnect path. -/
def scen0 : ServerState := { initState with openConns := [1, 2, 3] }

def scen1 : ServerState := (wsAuth testOracle scen0 0 1 "S_A").1

def scen2 : ServerState :=
  (createRoom scen1 0 (some 1) "S_A" none (some "5+0") "ROOMAA").2.1

def scen3 : ServerState := (wsAuth testOracle scen2 0 2 "S_B").1

def scen4 : ServerState :=
  (joinRoom testOracle scen3 0 (some 2) "S_B" none "ROOMAA").2.1

def scen5 : ServerState := (wsAuth testOracle scen4 5000 3 "S_B").1

def c5r : ServerState × List Event := wsHandleClose scen5 6000 2

/-- C5 evaluated at the failing input: before the stale close the room is
playing with the black slot bound to the newer connection 3 and no grace
timer armed; processing the close of the superseded connection 2 then nulls
the slot connection, marks it disconnected, arms the grace timer and sends
opponent_disconnected, while only the session-to-room binding survives.
The close handler keys on the session alone, so the newer connection does
not shield the seat as the claim requires. -/
theorem claimC5_superseded_close_evaluated :
    (alookup scen5.rooms "ROOMAA").map
        (fun r => (r.status, r.black.map (fun p => (p.ws, p.connected)),
          r.disconnectTimer))
      = some (Status.playing, some (some 3, true), none) ∧
    (alookup c5r.1.rooms "ROOMAA").map
        (fun r => (r.black.map (fun p => (p.ws, p.connected)),
          r.disconnectTimer))
      = some (some (none, false), some Side.b) ∧
    Event.opponentDisconnected 1 60 ∈ c5r.2 ∧
    alookup c5r.1.sessionRooms "S_B" = some "ROOMAA" := by
  refine ⟨?_, ?_, ?_, ?_⟩ <;> decide

theorem getPlayerSide_eq (room : Room) (s : SessionId) (side : Side)
    (h : getPlayerSide room s = some side) :
    (side = Side.w ∧ room.white.sessionId = s) ∨
    (side = Side.b ∧ ∃ bp, room.black = some bp ∧ bp.sessionId = s) := by
  unfold getPlayerSide at h
  by_cases hw : room.white.sessionId = s
  · rw [if_pos hw] at h
    injection h with h
    exact Or.inl ⟨h.symm, hw⟩
  · rw [if_neg hw] at h
    rcases hb : room.black with _ | bp
    · rw [hb] at h
      cases h
    · rw [hb] at h
      dsimp only at h
      by_cases hbs : bp.sessionId = s
      · rw [if_pos hbs] at h
        injection h with h
        exact Or.inr ⟨h.symm, bp, rfl, hbs⟩
      · rw [if_neg hbs] at h
        cases h

def c9fin : ServerState := (handleResign scen4 "S_A").1

/-- C9 counterexample: in a reachable finished room with no grace timer,
processing the close of a seated player DOES arm a disconnect grace timer,
refuting the claim that no timer work happens for finished rooms. -/
theorem claimC9_counterexample :
    (alookup c9fin.rooms "ROOMAA").map
        (fun r => (r.status, r.disconnectTimer, r.cleanupTimer))
      = some (Status.finished, none, true) ∧
    (alookup (wsHandleClose c9fin 100 2).1.rooms "ROOMAA").map
        (fun r => r.disconnectTimer)
      = some (some Side.b) := by
  refine ⟨?_, ?_⟩ <;> decide

/-- C9 amended: a disconnect of a seated player in a finished room arms the
60 s grace timer (when none is armed) exactly as in a playing room, but the
timer is inert: its callback re-checks the status and, the room not being
playing, changes nothing and emits nothing; the cleanup TTL therefore stays
the only timer with an effect. -/
theorem claimC9_finished_close_amended (st : ServerState) (now : Int)
    (s : SessionId) (rid : String) (room : Room) (side : Side)
    (h1 : alookup st.sessionRooms s = some rid)
    (h2 : alookup st.rooms rid = some room)
    (h3 : room.status = Status.finished)
    (h4 : getPlayerSide room s = some side)
    (h5 : room.disconnectTimer = none) :
    ∃ room1,
      alookup (handleDisconnect st now s).1.rooms rid = some room1 ∧
        room1.status = Status.finished ∧
        room1.disconnectTimer = some side ∧
        disconnectTimerFire (handleDisconnect st now s).1 rid side
          = ((handleDisconnect st now s).1, []) := by
  obtain ⟨hside, hw⟩ | ⟨hside, bp, hb, hbs⟩ := getPlayerSide_eq room s side h4
  · subst hside
    simp only [handleDisconnect, h1, h2, h4, updatePlayerBySide, h3, h5,
      ServerState.setRoom]
    refine ⟨_, alookup_aset_self _ _ _, by trivial, by trivial, ?_⟩
    simp [disconnectTimerFire, alookup_aset_self, getPlayerBySide, h3]
  · subst hside
    simp only [handleDisconnect, h1, h2, h4, updatePlayerBySide, h3, h5, hb,
      ServerState.setRoom, Option.map_some]
    refine ⟨_, alookup_aset_self _ _ _, by trivial, by trivial, ?_⟩
    simp [disconnectTimerFire, alookup_aset_self, getPlayerBySide, h3, hb]

/-- Witness for the amended C9 at a concrete finished room. -/
theorem claimC9_finished_close_amended_witness :
    ∃ room1,
      alookup (handleDisconnect stFin 100 "S_B").1.rooms "ROOM01"
          = some room1 ∧
        room1.status = Status.finished ∧
        room1.disconnectTimer = some Side.b ∧
        disconnectTimerFire (handleDisconnect stFin 100 "S_B").1 "ROOM01"
            Side.b
          = ((handleDisconnect stFin 100 "S_B").1, []) :=
  claimC9_finished_close_amended stFin 100 "S_B" "ROOM01" roomFin Side.b
    (by decide) (by decide) (by decide) (by decide) (by decide)

/-- A session that queued for 5+0 on connection 1 and then, while still
waiting, issues create_room. -/
def c6q : ServerState :=
  (joinQueue testOracle { initState with openConns := [1] } 0 (some 1) "S_A"
    none (some "5+0") true "XXXXXX").1

def c6both : ServerState :=
  (createRoom c6q 0 (some 1) "S_A" none (some "3+0") "ROOMBB").2.1

/-- C6 counterexample: after joinQueue enqueues S_A (reachable from the
initial state) a createRoom for the same session binds it to a room while
the queue entry survives, so the session is simultaneously queued and
seated and the claimed invariant fails. -/
theorem claimC6_counterexample :
    inAnyQueue c6both.queues "S_A" = true ∧
    alookup c6both.sessionRooms "S_A" = some "ROOMBB" := by
  have hq : c6q = { initState with
      openConns := [1],
      queues := [("5+0", [{ ws := some 1, sessionId := "S_A",
                            name := "Player" }])] } := by
    unfold c6q
    rw [joinQueue]
    decide
  refine ⟨?_, ?_⟩ <;> rw [c6both, hq] <;> decide

/-- C6 amended: the guard holds in one direction only. joinQueue never
enqueues a session already bound to a room: it returns the state unchanged
with a single error frame (Already in queue when the session is also
queued, otherwise Already in a game). Room creation and joining perform no
such check, so the converse direction of the invariant is not enforced. -/
theorem claimC6_seated_never_enqueued (o : Oracle) (st : ServerState)
    (now : Int) (ws : Option ConnId) (s : SessionId)
    (name timeControl : Option String) (coin : Bool) (code : String)
    (hseated : (getRoomForSession st s).isSome = true) :
    (joinQueue o st now ws s name timeControl coin code).1 = st ∧
    (joinQueue o st now ws s name timeControl coin code).2
      = sendTo st ws (fun c => Event.errorFrame c
          (if inAnyQueue st.queues s then "Already in queue"
           else "Already in a game")) := by
  rw [joinQueue]
  by_cases hq : inAnyQueue st.queues s
  · simp [hq]
  · simp [hq, hseated]

/-- Witness for the amended C6: the seated session S_A is rejected. -/
theorem claimC6_seated_never_enqueued_witness :
    (joinQueue testOracle stPlay 0 (some 1) "S_A" none (some "5+0") true
      "ZZZZZZ").1 = stPlay ∧
    (joinQueue testOracle stPlay 0 (some 1) "S_A" none (some "5+0") true
      "ZZZZZZ").2
      = sendTo stPlay (some 1) (fun c => Event.errorFrame c
          (if inAnyQueue stPlay.queues "S_A" then "Already in queue"
           else "Already in a game")) :=
  claimC6_seated_never_enqueued testOracle stPlay 0 (some 1) "S_A" none
    (some "5+0") true "ZZZZZZ" (by decide)

/-- C7: the selection policy of the wildcard-aware findMatch. A specific
tag pops the head of its own queue when non-empty, otherwise the head of
the wildcard queue, and in both cases the match runs at the caller tag; a
wildcard caller pops the head of the first non-empty queue in insertion
order and the match runs at that queue tag, defaulting to 5+0 when that
queue is the wildcard queue too. -/
theorem claimC7_findMatch_policy (qs pre post : Queues) (tc qtc : String)
    (e : QueueEntry) (rest : List QueueEntry) :
    (tc ≠ "any" → alookup qs tc = some (e :: rest) →
      (findMatch qs tc).1 = some (e, tc)) ∧
    (tc ≠ "any" → (alookup qs tc = none ∨ alookup qs tc = some []) →
      alookup qs "any" = some (e :: rest) →
      (findMatch qs tc).1 = some (e, tc)) ∧
    ((∀ p ∈ pre, p.2 = []) →
      (findMatch (pre ++ (qtc, e :: rest) :: post) "any").1
        = some (e, if qtc = "any" then DEFAULT_TC else qtc)) := by
  refine ⟨?_, ?_, ?_⟩
  · intro htc halk
    simp [findMatch, htc, halk]
  · intro htc halk hany
    rcases halk with halk | halk <;> simp [findMatch, htc, halk, hany]
  · induction pre with
    | nil =>
      intro _
      simp [findMatch, findAnyMatch]
    | cons p pre2 ih =>
      intro hpre
      have hp : p.2 = [] := hpre p (by simp)
      obtain ⟨ptc, pq⟩ := p
      simp only at hp
      subst hp
      simp only [List.cons_append, findMatch, if_pos rfl, findAnyMatch]
      have := ih (fun q hq => hpre q (List.mem_cons_of_mem _ hq))
      simpa [findMatch] using this

def queueEntryX : QueueEntry :=
  { ws := some 7, sessionId := "S_X", name := "X" }

/-- Witness for C7: a 3+2 caller pops the 3+2 queue head, a 3+2 caller
falls back to the wildcard queue at 3+2, and a wildcard caller skips an
empty queue and pops a wildcard waiter at the 5+0 default. -/
theorem claimC7_findMatch_policy_witness :
    (findMatch [("3+2", [queueEntryX])] "3+2").1
      = some (queueEntryX, "3+2") ∧
    (findMatch [("any", [queueEntryX])] "3+2").1
      = some (queueEntryX, "3+2") ∧
    (findMatch ([("9+9", [])] ++ ("any", [queueEntryX]) :: []) "any").1
      = some (queueEntryX, if "any" = "any" then DEFAULT_TC else "any") :=
  ⟨(claimC7_findMatch_policy [("3+2", [queueEntryX])] [] [] "3+2" ""
      queueEntryX []).1 (by decide) (by decide),
   (claimC7_findMatch_policy [("any", [queueEntryX])] [] [] "3+2" ""
      queueEntryX []).2.1 (by decide) (Or.inl (by decide)) (by decide),
   (claimC7_findMatch_policy [] [("9+9", [])] [] "" "any"
      queueEntryX []).2.2 (by decide)⟩

/-- C8: an accepted rematch in a finished room restarts it playing with the
colours swapped, a fresh engine at the initial position, an empty move
log, clocks rebuilt from the same time-control spec with lastMoveAt
stamped now, a freshly created persistence id replacing the previous one,
and the cleanup timer cancelled; a new CreateGame call is emitted. -/
theorem claimC8_rematch_accept (o : Oracle) (st : ServerState) (now : Int)
    (s : SessionId) (rid : String) (room : Room) (bp : Player) (m inc : Nat)
    (g : Nat)
    (h1 : alookup st.sessionRooms s = some rid)
    (h2 : alookup st.rooms rid = some room)
    (h3 : room.status = Status.finished)
    (h4 : room.black = some bp)
    (h5 : parseTimeControl (some room.timeControl) = some (m, inc))
    (h6 : room.dbGameId = some g)
    (h7 : g < st.nextDbId) :
    (∃ room1,
      alookup (handleRematchResponse o st now s true).1.rooms rid
          = some room1 ∧
        room1.status = Status.playing ∧
        room1.white.sessionId = bp.sessionId ∧
        room1.white.ws = bp.ws ∧
        room1.black.map (fun p => (p.sessionId, p.ws))
          = some (room.white.sessionId, room.white.ws) ∧
        room1.chess.history = [] ∧
        room1.moves = [] ∧
        room1.clocks = some { w := (m : Int) * 60 * 1000,
                              b := (m : Int) * 60 * 1000,
                              increment := (inc : Int) * 1000,
                              lastMoveAt := some now } ∧
        room1.dbGameId = some st.nextDbId ∧
        room1.dbGameId ≠ room.dbGameId ∧
        room1.cleanupTimer = false) ∧
    Event.dbCreateGame st.nextDbId room.timeControl (o.fen [])
        bp.name room.white.name
      ∈ (handleRematchResponse o st now s true).2 := by
  simp only [handleRematchResponse, h1, h2, h3, h4, h5, h6, createGame,
    ServerState.setRoom, ne_eq, not_true_eq_false, if_false, Bool.not_true,
    aset_aset]
  constructor
  · refine ⟨_, alookup_aset_self _ _ _, by trivial, by trivial, by trivial,
      by trivial, by trivial, by trivial, by trivial, by trivial, ?_,
      by trivial⟩
    simp only [h6, ne_eq, Option.some.injEq]
    omega
  · simp

/-- Witness for C8 at a finished 1+2 room: colours swap, clocks reset to
60000 with increment 2000, db id 2 replaces id 1, cleanup timer off. -/
theorem claimC8_rematch_accept_witness :
    (∃ room1,
      alookup (handleRematchResponse testOracle stFin 9999 "S_B" true).1.rooms
          "ROOM01" = some room1 ∧
        room1.status = Status.playing ∧
        room1.white.sessionId = bob.sessionId ∧
        room1.white.ws = bob.ws ∧
        room1.black.map (fun p => (p.sessionId, p.ws))
          = some (roomFin.white.sessionId, roomFin.white.ws) ∧
        room1.chess.history = [] ∧
        room1.moves = [] ∧
        room1.clocks = some { w := ((1 : Nat) : Int) * 60 * 1000,
                              b := ((1 : Nat) : Int) * 60 * 1000,
                              increment := ((2 : Nat) : Int) * 1000,
                              lastMoveAt := some 9999 } ∧
        room1.dbGameId = some stFin.nextDbId ∧
        room1.dbGameId ≠ roomFin.dbGameId ∧
        room1.cleanupTimer = false) ∧
    Event.dbCreateGame stFin.nextDbId roomFin.timeControl (testOracle.fen [])
        bob.name roomFin.white.name
      ∈ (handleRematchResponse testOracle stFin 9999 "S_B" true).2 :=
  claimC8_rematch_accept testOracle stFin 9999 "S_B" "ROOM01" roomFin bob
    1 2 1 (by decide) (by decide) (by decide) (by decide) (by decide)
    (by decide) (by decide)

/-- Replace only the rematchOfferedBy field of a stored room. -/
def setRematchOfferedBy (st : ServerState) (rid : String)
    (x : Option Side) : ServerState :=
  match alookup st.rooms rid with
  | some r => st.setRoom rid { r with rematchOfferedBy := x }
  | none => st

/-- C10: handleRematchResponse with accept = true performs the full rematch
transition for any session mapped to a finished room without consulting the
stored rematchOfferedBy: the transition needs no hypothesis about the
offer field, and changing that field to any value (no offer, own offer,
opponent offer) leaves the entire result, state and events, unchanged. -/
theorem claimC10_accept_ignores_offer (o : Oracle) (st : ServerState)
    (now : Int) (s : SessionId) (rid : String) (room : Room) (bp : Player)
    (x : Option Side)
    (h1 : alookup st.sessionRooms s = some rid)
    (h2 : alookup st.rooms rid = some room)
    (h3 : room.status = Status.finished)
    (h4 : room.black = some bp) :
    (∃ room1,
      alookup (handleRematchResponse o st now s true).1.rooms rid
          = some room1 ∧
        room1.status = Status.playing ∧
        room1.white.sessionId = bp.sessionId ∧
        room1.black.map (fun p => p.sessionId) = some room.white.sessionId ∧
        room1.moves = [] ∧ room1.chess.history = [] ∧
        room1.rematchOfferedBy = none) ∧
    handleRematchResponse o (setRematchOfferedBy st rid x) now s true
      = handleRematchResponse o st now s true := by
  constructor
  · simp only [handleRematchResponse, h1, h2, h3, h4, createGame,
      ServerState.setRoom, ne_eq, not_true_eq_false, if_false, Bool.not_true,
      aset_aset]
    exact ⟨_, alookup_aset_self _ _ _, by trivial, by trivial, by trivial,
      by trivial, by trivial, by trivial⟩
  · simp only [setRematchOfferedBy, h2, ServerState.setRoom]
    simp only [handleRematchResponse, h1, h2, h3, h4, alookup_aset_self,
      createGame, ServerState.setRoom, ne_eq, not_true_eq_false, if_false,
      Bool.not_true, aset_aset, sendTo]

/-- Witness for C10 at a finished room whose rematchOfferedBy is none: the
responder accepts a rematch that was never offered, and overwriting the
offer field with an own-offer value changes nothing. -/
theorem claimC10_accept_ignores_offer_witness :
    (∃ room1,
      alookup (handleRematchResponse testOracle stFin 9999 "S_B" true).1.rooms
          "ROOM01" = some room1 ∧
        room1.status = Status.playing ∧
        room1.white.sessionId = bob.sessionId ∧
        room1.black.map (fun p => p.sessionId)
          = some roomFin.white.sessionId ∧
        room1.moves = [] ∧ room1.chess.history = [] ∧
        room1.rematchOfferedBy = none) ∧
    handleRematchResponse testOracle
        (setRematchOfferedBy stFin "ROOM01" (some Side.b)) 9999 "S_B" true
      = handleRematchResponse testOracle stFin 9999 "S_B" true :=
  claimC10_accept_ignores_offer testOracle stFin 9999 "S_B" "ROOM01" roomFin
    bob (some Side.b) (by decide) (by decide) (by decide) (by decide)

end ChessApi
